import Mathlib

/-!
Verification of the `build-shaper-font` crate (src/lib.rs): a shallow
embedding of its in-repository logic — metric resolution with a variation
model cache, axis-table (`fvar`) and name-record assembly, insert-marker
sorting, diagnostic translation, and UTF-16 offset conversion — together
with theorems settling the specified properties.

Floating point (`f64`) in the source is embedded as `ℚ`; the claims under
study only exercise values and operations at which `f64` arithmetic is
exact (small dyadic rationals), so the embedding is faithful there.
External crate operations the source calls are embedded by their
documented semantics and are marked as such in comments.
-/

namespace BuildShaperFont

/-- `write_fonts::OtRound` on `f64 -> i16` (the crate documents that it
matches fontTools `otRound`, i.e. `floor(value + 0.5)`: round half up,
deliberately NOT Rust's round-half-away-from-zero). Used by
`resolve_variable_metric` in src/lib.rs lines 183 and 190. -/
def otRound (x : ℚ) : ℤ := ⌊x + 1/2⌋

/-- A byte acceptable inside an OpenType tag (printable ASCII), per
`font_types::Tag::new_checked`. -/
def validTagByte (c : Char) : Bool := 0x20 ≤ c.toNat && c.toNat ≤ 0x7E

/-- An OpenType tag: exactly four bytes after space padding. Embeds
`font_types::Tag`. -/
structure FontTag where
  chars : List Char
deriving DecidableEq, Repr

/-- `font_types::Tag::from_str` (via `Tag::new_checked`): fails on the
empty string, on more than four bytes, and on non-printable bytes;
shorter tags are padded with trailing spaces. -/
def tagFromStr (s : String) : Option FontTag :=
  let cs := s.data
  if cs.length = 0 ∨ 4 < cs.length then none
  else if cs.all validTagByte then
    some ⟨cs ++ List.replicate (4 - cs.length) ' '⟩
  else none

/-- The `AxisInfo` wasm-facing struct (src/lib.rs lines 48–76): tag string
plus user-space min/default/max. -/
structure AxisInfo where
  axisTag : String
  minValue : ℚ
  defaultValue : ℚ
  maxValue : ℚ

/-- `fontdrasil::types::Axis` as constructed in `SimpleVariationInfo::new`
(src/lib.rs lines 93–104). The coordinate converter is not embedded: no
claim under study depends on the normalization law. -/
structure Axis where
  name : String
  tag : FontTag
  min : ℚ
  default : ℚ
  max : ℚ
  hidden : Bool
deriving DecidableEq

/-- `Axis::ui_label_name` (fontdrasil): the human-readable label for an
axis, which for these axes is the name it was constructed with. -/
def Axis.uiLabelName (a : Axis) : String := a.name

/-- The axis list held by `SimpleVariationInfo` (src/lib.rs lines 78–81).
The model cache is threaded explicitly through resolution below instead
of being stored in a `RefCell`. -/
structure SimpleVariationInfo where
  axes : List Axis

/-- One axis of `SimpleVariationInfo::new` (src/lib.rs lines 88–105);
`Tag::from_str(&a.axis_tag).unwrap()` panics when the tag does not parse,
embedded as `none`. -/
def axisOfInfo (a : AxisInfo) : Option Axis :=
  (tagFromStr a.axisTag).map fun tag =>
    { name := a.axisTag
      tag := tag
      min := a.minValue
      default := a.defaultValue
      max := a.maxValue
      hidden := false }

/-- The axis-construction iteration of `SimpleVariationInfo::new`: one
`Axis` per `AxisInfo` in input order, `none` as soon as a tag fails to
parse (the `unwrap` panic). -/
def axesOfInfos : List AxisInfo → Option (List Axis)
  | [] => some []
  | a :: rest =>
    match axisOfInfo a, axesOfInfos rest with
    | some ax, some axs => some (ax :: axs)
    | _, _ => none

/-- `SimpleVariationInfo::new` (src/lib.rs lines 84–113): constructs one
`Axis` per `AxisInfo` in input order; `none` embeds the panic raised by
`unwrap` on an unparseable tag. -/
def SimpleVariationInfo.new (axisInfos : List AxisInfo) :
    Option SimpleVariationInfo :=
  (axesOfInfos axisInfos).map fun axes => ⟨axes⟩

/-- `fontdrasil::coords::NormalizedLocation`: an ordered mapping from axis
tag to normalized coordinate, with structural equality. -/
abbrev NormalizedLocation := List (String × ℚ)

/-- `fontdrasil::variations::VariationModel` as a black box: fully
determined by the master-location set and the axis ordering it is built
from (`VariationModel::new(locations, axis_order)`, called in
src/lib.rs line 161); its delta decomposition is supplied as an explicit
deterministic function where needed. -/
structure VariationModel where
  locations : Finset NormalizedLocation
  axisOrder : List String
deriving DecidableEq

/-- The model cache of `SimpleVariationInfo` (src/lib.rs line 80):
`HashMap<BTreeSet<NormalizedLocation>, VariationModel>`, embedded as an
association list keyed by the (insertion-order-independent) location
set. -/
abbrev ModelCache := List (Finset NormalizedLocation × VariationModel)

/-- `HashMap` lookup on the cache: the key is the structural location
set, so two keys match exactly when the sets are equal. -/
def cacheLookup (cache : ModelCache) (k : Finset NormalizedLocation) :
    Option VariationModel :=
  match cache with
  | [] => none
  | (k2, m) :: rest => if k2 = k then some m else cacheLookup rest k

/-- `model_cache.entry(locations).or_insert_with(|| VariationModel::new(..))`
(src/lib.rs lines 159–162): on a hit return the cached model and leave
the cache unchanged; on a miss build the model over exactly the requested
location set with the axis order fixed at resolver construction, insert
it, and return it. -/
def modelFor (axisOrder : List String) (cache : ModelCache)
    (locations : Finset NormalizedLocation) :
    VariationModel × ModelCache :=
  match cacheLookup cache locations with
  | some m => (m, cache)
  | none =>
    let m : VariationModel := ⟨locations, axisOrder⟩
    (m, (locations, m) :: cache)

/-- A region of the variation model, abstracted to the two observations
`resolve_variable_metric` makes of it: its scalar weight at the model's
default location (`region.scalar_at(&var_model.default)`) and whether it
is the default region (`region.is_default()`). -/
structure VarRegion where
  scalarAtDefault : ℚ
  isDefault : Bool
deriving DecidableEq

/-- `write_fonts::tables::variations::VariationRegion` as produced by
`region.to_write_fonts_variation_region(&self.axes)` (src/lib.rs
line 189): a black-box conversion carrying its source region. -/
structure WfRegion where
  src : VarRegion
deriving DecidableEq

/-- Outcome of a Rust computation that can return, signal an error value,
or panic. -/
inductive ROut (α : Type) where
  | ok : α → ROut α
  | err : ROut α
  | panic : String → ROut α
deriving DecidableEq

/-- The unrounded default sum of src/lib.rs lines 176–182: over every
region whose scalar at the model default is non-zero, sum
`value * scalar`. -/
def unroundedDefault (deltas : List (VarRegion × ℚ)) : ℚ :=
  (deltas.filterMap fun rv =>
    if rv.1.scalarAtDefault ≠ 0 then some (rv.2 * rv.1.scalarAtDefault)
    else none).sum

/-- The emitted delta list of src/lib.rs lines 186–192: every
decomposition entry whose region is not the default region, its region
converted and its value rounded with `ot_round`. -/
def emittedDeltas (deltas : List (VarRegion × ℚ)) : List (WfRegion × ℤ) :=
  (deltas.filter fun rv => !rv.1.isDefault).map fun rv =>
    (⟨rv.1⟩, otRound rv.2)

/-- Rounded default plus emitted deltas (src/lib.rs lines 175–194),
taking the model's per-region decomposition as input. -/
def resolveFromDeltas (deltas : List (VarRegion × ℚ)) :
    ℤ × List (WfRegion × ℤ) :=
  (otRound (unroundedDefault deltas), emittedDeltas deltas)

/-- The per-location one-element value sequences of src/lib.rs
lines 151–154. -/
def pointSeqs (values : List (NormalizedLocation × ℤ)) :
    List (NormalizedLocation × List ℚ) :=
  values.map fun pv => (pv.1, [(pv.2 : ℚ)])

/-- The location-set key of src/lib.rs line 156 (a `BTreeSet` built from
the sample keys, hence insertion-order independent). -/
def locationsOf (values : List (NormalizedLocation × ℤ)) :
    Finset NormalizedLocation :=
  ((pointSeqs values).map Prod.fst).toFinset

/-- The decomposition a call to `resolve_variable_metric` works with
(src/lib.rs lines 165–173): fetch the model (through the cache), run the
external `deltas` routine, and squeeze each region's one-element value
sequence (`assert!(values.len() == 1)`); `none` when the routine errors
or the assertion fires. -/
def decompOf
    (deltasFn : VariationModel → List (NormalizedLocation × List ℚ) →
      Except Unit (List (VarRegion × List ℚ)))
    (axisOrder : List String) (cache : ModelCache)
    (values : List (NormalizedLocation × ℤ)) :
    Option (List (VarRegion × ℚ)) :=
  let seqs := pointSeqs values
  let mc := modelFor axisOrder cache (locationsOf values)
  match deltasFn mc.1 seqs with
  | .error _ => none
  | .ok raw =>
    if raw.all fun rv => rv.2.length = 1 then
      some (raw.map fun rv => (rv.1, rv.2.headD 0))
    else none

/-- `SimpleVariationInfo::resolve_variable_metric` (src/lib.rs
lines 146–195), with the external `VariationModel::deltas` routine passed
in as `deltasFn` and the cache threaded explicitly. `.err` is the mapped
`VariationError`; `.panic` is the `assert!` on a region reporting other
than one value. -/
def resolve_variable_metric
    (deltasFn : VariationModel → List (NormalizedLocation × List ℚ) →
      Except Unit (List (VarRegion × List ℚ)))
    (axisOrder : List String) (cache : ModelCache)
    (values : List (NormalizedLocation × ℤ)) :
    ROut ((ℤ × List (WfRegion × ℤ)) × ModelCache) :=
  let seqs := pointSeqs values
  let mc := modelFor axisOrder cache (locationsOf values)
  match deltasFn mc.1 seqs with
  | .error _ => .err
  | .ok raw =>
    if raw.all fun rv => rv.2.length = 1 then
      .ok (resolveFromDeltas (raw.map fun rv => (rv.1, rv.2.headD 0)), mc.2)
    else .panic "values?!"

/-- `SimpleVariationInfo::resolve_glyphs_number_value` (src/lib.rs
lines 197–202): `unimplemented!`, i.e. an unconditional panic. -/
def resolve_glyphs_number_value (_s : String) :
    ROut (List (NormalizedLocation × ℚ)) :=
  .panic "not implemented: Glyphs number values are not supported"

/-- A record of the font's `name` table as pushed in src/lib.rs
lines 354–360 (`NameRecord::new(3, 1, 0x0409, name_id, label)`). -/
structure NameRecord where
  platformId : ℕ
  encodingId : ℕ
  languageId : ℕ
  nameId : ℕ
  string : String
deriving DecidableEq

/-- `write_fonts::tables::fvar::VariationAxisRecord` as filled in
src/lib.rs lines 362–369; min/default/max are kept in user coordinates
(the 16.16 fixed-point encoding is the table writer's concern and no
claim under study depends on it). -/
structure VariationAxisRecord where
  axisTag : FontTag
  minValue : ℚ
  defaultValue : ℚ
  maxValue : ℚ
  axisNameId : ℕ
deriving DecidableEq

/-- `font_types::NameId::LAST_RESERVED_NAME_ID` (255). -/
def lastReservedNameId : ℕ := 255

/-- `NameId::checked_add` over a `u16` payload: `none` once the sum
leaves the `u16` range. -/
def nameIdCheckedAdd (n k : ℕ) : Option ℕ :=
  if n + k ≤ 65535 then some (n + k) else none

/-- The seed of the name-ID counter (src/lib.rs lines 343–349, before the
`checked_add`): the maximum existing name ID (0 when there is none),
clamped up to the last reserved system ID. -/
def nameIdBase (nameRecords : List NameRecord) : ℕ :=
  Nat.max ((nameRecords.map NameRecord.nameId).foldl Nat.max 0)
    lastReservedNameId

/-- The first ID the allocator hands out:
`max(existing_name_ids ∪ {last_reserved_system_id}) + 1`. -/
def startNameId (nameRecords : List NameRecord) : ℕ :=
  nameIdBase nameRecords + 1

/-- The per-axis loop of src/lib.rs lines 353–372: append one name
record and one fvar axis record per axis, incrementing the counter with
`checked_add(1).unwrap()` after each axis; `none` embeds the panic when
the increment overflows `u16`. -/
def buildAxisLoop : List Axis → List NameRecord →
    List VariationAxisRecord → ℕ →
    Option (List NameRecord × List VariationAxisRecord)
  | [], nameRecs, fvarAxes, _ => some (nameRecs, fvarAxes)
  | axis :: rest, nameRecs, fvarAxes, nameId =>
    let nameRecs := nameRecs ++
      [⟨3, 1, 0x0409, nameId, axis.uiLabelName⟩]
    let fvarAxes := fvarAxes ++
      [⟨axis.tag, axis.min, axis.default, axis.max, nameId⟩]
    match nameIdCheckedAdd nameId 1 with
    | none => none
    | some nid => buildAxisLoop rest nameRecs fvarAxes nid

/-- The whole axis-table assembly step of src/lib.rs lines 342–374:
seed the counter (panicking — `none` — if even the seed increment
overflows), then run the per-axis loop over the name table taken from
the compilation. -/
def buildAxisTables (axes : List Axis) (nameRecords : List NameRecord) :
    Option (List NameRecord × List VariationAxisRecord) :=
  match nameIdCheckedAdd (nameIdBase nameRecords) 1 with
  | none => none
  | some id0 => buildAxisLoop axes nameRecords [] id0

/-- The `fvar` table (`Fvar::new(AxisInstanceArrays::new(fvar_axes,
Vec::new()))`, src/lib.rs line 380). -/
structure Fvar where
  axes : List VariationAxisRecord
  instances : List Unit
deriving DecidableEq

/-- src/lib.rs lines 340–382 restricted to table content: starting from
the compilation's name table, attach the updated name table and — only
when the produced axis-record list is non-empty — an `fvar` table.
`none` embeds a name-ID-counter panic. -/
def attachTables (variationInfo : Option SimpleVariationInfo)
    (nameRecords : List NameRecord) :
    Option (List NameRecord × Option Fvar) :=
  match variationInfo with
  | none => some (nameRecords, none)
  | some vi =>
    match buildAxisTables vi.axes nameRecords with
    | none => none
    | some (newName, fvarAxes) =>
      some (newName, if fvarAxes.isEmpty then none else some ⟨fvarAxes, []⟩)

/-- The table-assembly portion of `build_shaper_font` reached on a
successful build (src/lib.rs lines 304 and 340–382): construct the
optional `SimpleVariationInfo` from the optional axis list (line 304;
`none` embeds the tag-parse panic) and attach the tables. -/
def buildTablesStep (axes : Option (List AxisInfo))
    (nameRecords : List NameRecord) :
    Option (List NameRecord × Option Fvar) :=
  match axes with
  | none => attachTables none nameRecords
  | some infos =>
    match SimpleVariationInfo.new infos with
    | none => none
    | some vi => attachTables (some vi) nameRecords

/-- `InsertMarker` (src/lib.rs lines 40–46): feature tag plus lookup
index. -/
structure InsertMarker where
  tag : String
  lookupId : ℕ
deriving DecidableEq

/-- The comparator of src/lib.rs line 329: `a.tag.cmp(&b.tag)` as a
non-strict order (Rust byte-wise `cmp` on UTF-8 strings agrees with the
lexicographic order on scalar values). -/
def markerLe (a b : InsertMarker) : Prop := a.tag ≤ b.tag

instance : DecidableRel markerLe := fun a b =>
  inferInstanceAs (Decidable (a.tag ≤ b.tag))

instance : IsTotal InsertMarker markerLe :=
  ⟨fun a b => le_total a.tag b.tag⟩

instance : IsTrans InsertMarker markerLe :=
  ⟨fun _ _ _ hab hbc => le_trans hab hbc⟩

/-- `insert_markers.sort_by(|a, b| a.tag.cmp(&b.tag))` (src/lib.rs
line 329): a stable sort of the compiler-produced markers into
non-decreasing tag order, embedded as an insertion sort (same
sorted-permutation contract as Rust's stable `sort_by`). -/
def sortInsertMarkers (ms : List InsertMarker) : List InsertMarker :=
  ms.insertionSort markerLe

/-- `MAX_DIAGNOSTICS` (src/lib.rs line 30). -/
def MAX_DIAGNOSTICS : ℕ := 100

/-- A diagnostic as consumed by `CompilationResult::add_diagnostics`:
severity label, message text, byte span, and source-file identifier. -/
structure Diagnostic where
  level : String
  text : String
  spanStart : ℕ
  spanEnd : ℕ
  file : ℕ
deriving DecidableEq

/-- `fea_rs::DiagnosticSet::new(messages, tree, max_to_print)`: stores
every diagnostic; `max_to_print` only truncates the set's `Display`
rendering and does not drop stored messages, so
`DiagnosticSet::diagnostics()` yields them all. -/
structure DiagnosticSet where
  messages : List Diagnostic
  maxToPrint : ℕ
deriving DecidableEq

/-- `DiagnosticSet::new`. -/
def DiagnosticSet.new (messages : List Diagnostic) (maxToPrint : ℕ) :
    DiagnosticSet :=
  ⟨messages, maxToPrint⟩

/-- A host-facing `Message` (src/lib.rs lines 205–218): level, text, and
a UTF-16 span. -/
structure Message where
  level : String
  text : String
  spanStart : ℕ
  spanEnd : ℕ
deriving DecidableEq

/-- `char::len_utf16`: one code unit below U+10000, two otherwise. -/
def lenUtf16 (c : Char) : ℕ := if c.toNat < 0x10000 then 1 else 2

/-- The UTF-8 byte length of a character sequence. -/
def utf8Len (cs : List Char) : ℕ := (cs.map Char.utf8Size).sum

/-- The UTF-16 code-unit length of a character sequence. -/
def utf16Len (cs : List Char) : ℕ := (cs.map lenUtf16).sum

/-- `s.get(..byte_offset)` on a `&str` (the string embedded as its list
of Unicode scalar values): `some` prefix exactly when the byte offset is
the UTF-8 length of a prefix of the string (a scalar-value boundary not
past the end), `none` otherwise. -/
def strGetTo : List Char → ℕ → Option (List Char)
  | _, 0 => some []
  | [], _ + 1 => none
  | c :: cs, b + 1 =>
    if c.utf8Size ≤ b + 1 then
      (strGetTo cs (b + 1 - c.utf8Size)).map (c :: ·)
    else none

/-- `to_utf16_offset` (src/lib.rs lines 251–255): the UTF-16 length of
the prefix below the byte offset when that offset is a valid boundary,
the byte offset unchanged otherwise. Total: never panics. -/
def to_utf16_offset (s : List Char) (byteOffset : ℕ) : ℕ :=
  match strGetTo s byteOffset with
  | some pre => utf16Len pre
  | none => byteOffset

/-- `CompilationResult::add_diagnostics` (src/lib.rs lines 231–248)
restricted to the messages list: for every diagnostic in the set, in
order, resolve its source text by file identifier (empty on failure) and
push one message with both span ends converted to UTF-16 offsets. -/
def addDiagnostics (messages : List Message) (ds : DiagnosticSet)
    (getSource : ℕ → Option (List Char)) : List Message :=
  messages ++ ds.messages.map fun d =>
    let source := (getSource d.file).getD []
    { level := d.level
      text := d.text
      spanStart := to_utf16_offset source d.spanStart
      spanEnd := to_utf16_offset source d.spanEnd }

/-! ## Theorems -/

/-- C4: the claim as stated is false — `resolve_glyphs_number_value`
does fail fast on every input and never silently returns an empty
result, but the failure is an `unimplemented!` panic (a crash), not an
`UnsupportedOperation` error surfaced as a diagnostic. At the concrete
input `""` the call panics and is not an error value. -/
theorem c4_counterexample :
    resolve_glyphs_number_value "" =
      .panic "not implemented: Glyphs number values are not supported" ∧
    resolve_glyphs_number_value "" ≠ .err := by
  refine ⟨rfl, ?_⟩
  simp [resolve_glyphs_number_value]

/-- C4 (amended): for every input string, resolving a named numeric
design value fails fast with an `unimplemented!` panic — it never
silently returns a result (in particular never an empty one) and never
returns an error value that could be surfaced as a diagnostic; the
failure is a crash. -/
theorem c4_number_value_panics (s : String) :
    resolve_glyphs_number_value s =
      .panic "not implemented: Glyphs number values are not supported" ∧
    (∀ v, resolve_glyphs_number_value s ≠ .ok v) ∧
    resolve_glyphs_number_value s ≠ .err := by
  refine ⟨rfl, fun v => ?_, ?_⟩ <;> simp [resolve_glyphs_number_value]

/-- C9: for every marker list the compiler produced, in whatever order,
the list stored in the returned result is sorted in non-decreasing
(ascending) lexicographic order by feature tag and is a permutation of
the input. -/
theorem c9_markers_sorted (ms : List InsertMarker) :
    (sortInsertMarkers ms).Sorted markerLe ∧
    (sortInsertMarkers ms).Perm ms := by
  exact ⟨List.sorted_insertionSort markerLe ms,
    List.perm_insertionSort markerLe ms⟩

/-- C10: the claim as stated is false — `MAX_DIAGNOSTICS` is passed to
`DiagnosticSet::new` as its `max_to_print` argument, which only caps the
set's printed rendering; every stored diagnostic is appended to the
result's messages list. A final-step batch of 101 diagnostics
contributes 101 > 100 messages. -/
theorem c10_counterexample :
    (addDiagnostics []
        (DiagnosticSet.new (List.replicate 101 ⟨"warning", "w", 0, 0, 0⟩)
          MAX_DIAGNOSTICS)
        fun _ => none).length = 101 ∧
    MAX_DIAGNOSTICS < 101 := by
  constructor
  · simp [addDiagnostics, DiagnosticSet.new]
  · decide

/-- C10 (amended): the diagnostics batch produced at the final build
step contributes exactly one message per diagnostic in the batch —
`MAX_DIAGNOSTICS` does not cap the returned messages list (it is only
the set's display limit). -/
theorem c10_diagnostics_uncapped (messages : List Message)
    (batch : List Diagnostic) (getSource : ℕ → Option (List Char)) :
    (addDiagnostics messages (DiagnosticSet.new batch MAX_DIAGNOSTICS)
        getSource).length = messages.length + batch.length := by
  simp [addDiagnostics, DiagnosticSet.new]

/-- C1: the claim as stated is false — the rounding is `ot_round`
(`floor(x + 0.5)`, round half up, the standard OpenType/fontTools rule),
which agrees with round-half-away-from-zero at +2.5 but not at -2.5: a
resolution whose unrounded default sum is exactly -5/2 returns -2, not
-3. The run below goes through `resolve_variable_metric` with a
decomposition of one default-region entry of value -5/2 and weight 1. -/
theorem c1_counterexample :
    resolve_variable_metric (fun _ _ => .ok [(⟨1, true⟩, [-5/2])]) [] []
        [([], 0)] =
      .ok ((-2, []),
        [(locationsOf [([], 0)], ⟨locationsOf [([], 0)], []⟩)]) ∧
    unroundedDefault [(⟨1, true⟩, -5/2)] = -5/2 ∧ (-2 : ℤ) ≠ -3 := by
  refine ⟨?_, ?_, by decide⟩
  · simp only [resolve_variable_metric, modelFor, cacheLookup,
      resolveFromDeltas, emittedDeltas, List.all_cons, List.all_nil,
      List.map_cons, List.map_nil, List.filter, List.headD,
      List.length_cons, List.length_nil]
    norm_num [unroundedDefault, List.filterMap_cons, otRound]
  · norm_num [unroundedDefault, List.filterMap_cons]

/-- C1 (amended): the unrounded default sum and every emitted delta
value are rounded to the nearest integer with ties toward positive
infinity (`ot_round`, i.e. `floor(x + 0.5)`): the result `n` of rounding
`x` satisfies `x - 1/2 < n ≤ x + 1/2`; an unrounded default sum of
exactly 5/2 yields 3, and one of exactly -5/2 yields -2. -/
theorem c1_default_rounding (d : List (VarRegion × ℚ)) :
    (unroundedDefault d - 1/2 < ((resolveFromDeltas d).1 : ℚ) ∧
      ((resolveFromDeltas d).1 : ℚ) ≤ unroundedDefault d + 1/2) ∧
    (unroundedDefault d = 5/2 → (resolveFromDeltas d).1 = 3) ∧
    (unroundedDefault d = -5/2 → (resolveFromDeltas d).1 = -2) ∧
    ∀ p ∈ (resolveFromDeltas d).2, ∃ rv, rv ∈ d ∧
      (rv.2 - 1/2 < (p.2 : ℚ) ∧ (p.2 : ℚ) ≤ rv.2 + 1/2) := by
  have hround : ∀ x : ℚ, x - 1/2 < ((otRound x : ℤ) : ℚ) ∧
      ((otRound x : ℤ) : ℚ) ≤ x + 1/2 := by
    intro x
    constructor
    · have := Int.lt_floor_add_one (x + 1/2)
      unfold otRound
      linarith
    · have := Int.floor_le (x + 1/2)
      unfold otRound
      linarith
  refine ⟨hround _, ?_, ?_, ?_⟩
  · intro hx
    show otRound (unroundedDefault d) = 3
    rw [hx]
    norm_num [otRound]
  · intro hx
    show otRound (unroundedDefault d) = -2
    rw [hx]
    norm_num [otRound]
  · intro p hp
    have hp' : p ∈ emittedDeltas d := hp
    unfold emittedDeltas at hp'
    rcases List.mem_map.mp hp' with ⟨rv, hrvmem, hrveq⟩
    refine ⟨rv, (List.mem_filter.mp hrvmem).1, ?_⟩
    have : p.2 = otRound rv.2 := by rw [← hrveq]
    rw [this]
    exact hround rv.2

/-- Witness for `c1_default_rounding` at concrete decompositions whose
unrounded default sums are exactly 5/2 and -5/2, and with a concrete
emitted delta. -/
theorem c1_default_rounding_witness :
    (resolveFromDeltas [(⟨1, true⟩, 5/2)]).1 = 3 ∧
    (resolveFromDeltas [(⟨1, true⟩, -5/2)]).1 = -2 ∧
    ∃ rv, rv ∈ [(VarRegion.mk 0 false, (7/2 : ℚ))] ∧
      ((7/2 : ℚ) - 1/2 < ((4 : ℤ) : ℚ) ∧ ((4 : ℤ) : ℚ) ≤ 7/2 + 1/2) := by
  refine ⟨?_, ?_, ?_⟩
  · exact (c1_default_rounding [(⟨1, true⟩, 5/2)]).2.1
      (by norm_num [unroundedDefault, List.filterMap_cons])
  · exact (c1_default_rounding [(⟨1, true⟩, -5/2)]).2.2.1
      (by norm_num [unroundedDefault, List.filterMap_cons])
  · have := (c1_default_rounding [(⟨0, false⟩, 7/2)]).2.2.2
      (⟨⟨⟨0, false⟩⟩, otRound (7/2)⟩) (by norm_num [resolveFromDeltas,
        emittedDeltas, List.filter])
    rcases this with ⟨rv, hmem, hlt, hle⟩
    exact ⟨rv, hmem, by norm_num [otRound] at hlt hle ⊢⟩

/-- Auxiliary: axis construction over a list fails (panics) as soon as
any entry's tag fails to parse. -/
theorem axesOfInfos_eq_none (l : List AxisInfo)
    (h : ∃ a ∈ l, tagFromStr a.axisTag = none) :
    axesOfInfos l = none := by
  induction l with
  | nil => rcases h with ⟨a, ha, -⟩; cases ha
  | cons b rest ih =>
    rcases h with ⟨a, ha, hn⟩
    rcases List.mem_cons.mp ha with rfl | hmem
    · simp [axesOfInfos, axisOfInfo, hn]
    · have hrest := ih ⟨a, hmem, hn⟩
      cases hb : axisOfInfo b <;> simp [axesOfInfos, hb, hrest]

/-- C2: the claim as stated is false — an unparseable axis tag is not
surfaced as an `InvalidAxisTag` diagnostic; `SimpleVariationInfo::new`
calls `Tag::from_str(..).unwrap()`, so the compilation crashes with a
panic (embedded as `none`). Concretely, the empty tag `""` cannot be
parsed and axis construction panics instead of producing a diagnostic
result. -/
theorem c2_counterexample :
    tagFromStr "" = none ∧
    SimpleVariationInfo.new [⟨"", 0, 0, 0⟩] = none ∧
    buildTablesStep (some [⟨"", 0, 0, 0⟩]) [] = none := by
  refine ⟨rfl, ?_, ?_⟩ <;>
    simp [SimpleVariationInfo.new, buildTablesStep, axesOfInfos,
      axisOfInfo, tagFromStr]

/-- C2 (amended): for every axes list containing an entry whose tag
string cannot be parsed as a 4-character identifier, axis construction
panics on the `unwrap` of the failed tag parse — the compilation crashes
and no diagnostic result is returned. -/
theorem c2_invalid_tag_panics (infos : List AxisInfo)
    (h : ∃ a ∈ infos, tagFromStr a.axisTag = none) :
    SimpleVariationInfo.new infos = none ∧
    ∀ nameRecords, buildTablesStep (some infos) nameRecords = none := by
  have hnew : SimpleVariationInfo.new infos = none := by
    unfold SimpleVariationInfo.new
    rw [axesOfInfos_eq_none infos h]
    rfl
  refine ⟨hnew, fun nameRecords => ?_⟩
  simp [buildTablesStep, hnew]

/-- Witness for `c2_invalid_tag_panics`: an axis whose tag is the
five-byte string `"toolong"` cannot be parsed, and construction panics. -/
theorem c2_invalid_tag_panics_witness :
    SimpleVariationInfo.new [⟨"toolong", 100, 400, 900⟩] = none ∧
    buildTablesStep (some [⟨"toolong", 100, 400, 900⟩])
      [⟨3, 1, 0x0409, 256, "Weight"⟩] = none := by
  have h := c2_invalid_tag_panics [⟨"toolong", 100, 400, 900⟩]
    ⟨⟨"toolong", 100, 400, 900⟩, by simp, by simp [tagFromStr]⟩
  exact ⟨h.1, h.2 [⟨3, 1, 0x0409, 256, "Weight"⟩]⟩

/-- Auxiliary: after `model_for`, the cache maps the requested key to
the returned model. -/
theorem cacheLookup_modelFor (axisOrder : List String) (cache : ModelCache)
    (k : Finset NormalizedLocation) :
    cacheLookup (modelFor axisOrder cache k).2 k =
      some (modelFor axisOrder cache k).1 := by
  unfold modelFor
  cases h : cacheLookup cache k with
  | some m => simp [h]
  | none => simp [h, cacheLookup]

/-- C5: within one resolver, two metric resolutions whose sample key
sets are structurally equal sets of normalized locations (however the
key lists were ordered) use the same variation model: the second
`model_for` call returns the first call's model and leaves the cache
unchanged, a miss builds the model over exactly the requested location
set with the axis ordering fixed at resolver construction, a hit
returns the cached model unchanged, and — the decomposition routine
being a deterministic function of the model — both resolutions obtain
identical delta decompositions for any sample mapping. -/
theorem c5_model_cache_coherence (axisOrder : List String)
    (cache : ModelCache) (v1 v2 : List (NormalizedLocation × ℤ))
    (h : locationsOf v1 = locationsOf v2) :
    (modelFor axisOrder (modelFor axisOrder cache (locationsOf v1)).2
        (locationsOf v2)).1 =
      (modelFor axisOrder cache (locationsOf v1)).1 ∧
    (modelFor axisOrder (modelFor axisOrder cache (locationsOf v1)).2
        (locationsOf v2)).2 =
      (modelFor axisOrder cache (locationsOf v1)).2 ∧
    (cacheLookup cache (locationsOf v1) = none →
      (modelFor axisOrder cache (locationsOf v1)).1 =
        ⟨locationsOf v1, axisOrder⟩) ∧
    (∀ m, cacheLookup cache (locationsOf v1) = some m →
      (modelFor axisOrder cache (locationsOf v1)).1 = m ∧
      (modelFor axisOrder cache (locationsOf v1)).2 = cache) ∧
    ∀ (deltasFn : VariationModel → List (NormalizedLocation × List ℚ) →
          Except Unit (List (VarRegion × List ℚ)))
      (s : List (NormalizedLocation × List ℚ)),
      deltasFn (modelFor axisOrder (modelFor axisOrder cache
          (locationsOf v1)).2 (locationsOf v2)).1 s =
        deltasFn (modelFor axisOrder cache (locationsOf v1)).1 s := by
  have hsecond :
      modelFor axisOrder (modelFor axisOrder cache (locationsOf v1)).2
        (locationsOf v2) =
      ((modelFor axisOrder cache (locationsOf v1)).1,
        (modelFor axisOrder cache (locationsOf v1)).2) := by
    have hl := cacheLookup_modelFor axisOrder cache (locationsOf v1)
    rw [← h]
    set mc := modelFor axisOrder cache (locationsOf v1) with hmc
    unfold modelFor
    rw [hl]
  refine ⟨by rw [hsecond], by rw [hsecond], ?_, ?_, ?_⟩
  · intro hm
    unfold modelFor
    rw [hm]
  · intro m hm
    unfold modelFor
    rw [hm]
    exact ⟨rfl, rfl⟩
  · intro deltasFn s
    rw [hsecond]

/-- Witness for `c5_model_cache_coherence`: the same two-location key
set presented in two different orders, starting from an empty cache. -/
theorem c5_model_cache_coherence_witness :
    (modelFor ["wght"] (modelFor ["wght"] []
        (locationsOf [([("wght", 1)], 5), ([("wght", 0)], 3)])).2
        (locationsOf [([("wght", 0)], 3), ([("wght", 1)], 5)])).1 =
      (modelFor ["wght"] []
        (locationsOf [([("wght", 1)], 5), ([("wght", 0)], 3)])).1 ∧
    (cacheLookup []
        (locationsOf [([("wght", 1)], 5), ([("wght", 0)], 3)]) = none →
      (modelFor ["wght"] []
          (locationsOf [([("wght", 1)], 5), ([("wght", 0)], 3)])).1 =
        ⟨locationsOf [([("wght", 1)], 5), ([("wght", 0)], 3)], ["wght"]⟩) := by
  have h := c5_model_cache_coherence ["wght"] []
    [([("wght", 1)], 5), ([("wght", 0)], 3)]
    [([("wght", 0)], 3), ([("wght", 1)], 5)]
    (by simp [locationsOf, pointSeqs]; exact Finset.pair_comm _ _)
  exact ⟨h.1, h.2.2.1⟩

/-- C6: every successful `resolve_variable_metric` call returns, for
the decomposition it obtained, one delta entry per non-default region
(in order, with the region converted and the value rounded) and no
entry for the default region — the default region's contribution
appears only inside the rounded default value. -/
theorem c6_deltas_exclude_default
    (deltasFn : VariationModel → List (NormalizedLocation × List ℚ) →
      Except Unit (List (VarRegion × List ℚ)))
    (axisOrder : List String) (cache : ModelCache)
    (values : List (NormalizedLocation × ℤ)) (d : List (VarRegion × ℚ))
    (h : decompOf deltasFn axisOrder cache values = some d) :
    resolve_variable_metric deltasFn axisOrder cache values =
      .ok ((otRound (unroundedDefault d), emittedDeltas d),
        (modelFor axisOrder cache (locationsOf values)).2) ∧
    (∀ rv ∈ d, rv.1.isDefault = false →
      (⟨rv.1⟩, otRound rv.2) ∈ emittedDeltas d) ∧
    (∀ p ∈ emittedDeltas d, p.1.src.isDefault = false) ∧
    (emittedDeltas d).length =
      (d.filter fun rv => !rv.1.isDefault).length := by
  refine ⟨?_, ?_, ?_, by simp [emittedDeltas]⟩
  · simp only [decompOf] at h
    simp only [resolve_variable_metric]
    cases hdf : deltasFn
        (modelFor axisOrder cache (locationsOf values)).1
        (pointSeqs values) with
    | error e => rw [hdf] at h; simp at h
    | ok raw =>
      rw [hdf] at h
      simp only at h
      split_ifs at h with hall
      simp only [Option.some.injEq] at h
      subst h
      simp [hall, resolveFromDeltas]
  · intro rv hrv hdef
    unfold emittedDeltas
    exact List.mem_map_of_mem _
      (List.mem_filter.mpr ⟨hrv, by simp [hdef]⟩)
  · intro p hp
    unfold emittedDeltas at hp
    rcases List.mem_map.mp hp with ⟨rv, hrvmem, hrveq⟩
    have := (List.mem_filter.mp hrvmem).2
    rw [← hrveq]
    simpa using this

/-- Witness for `c6_deltas_exclude_default` at a concrete two-region
decomposition (one default region, one non-default region). -/
theorem c6_deltas_exclude_default_witness :
    resolve_variable_metric
        (fun _ _ => .ok [(⟨0, false⟩, [2]), (⟨1, true⟩, [3])]) [] []
        [([], 1)] =
      .ok ((otRound (unroundedDefault [(⟨0, false⟩, 2), (⟨1, true⟩, 3)]),
          emittedDeltas [(⟨0, false⟩, 2), (⟨1, true⟩, 3)]),
        (modelFor [] [] (locationsOf [([], 1)])).2) ∧
    ∀ p ∈ emittedDeltas [(⟨0, false⟩, (2 : ℚ)), (⟨1, true⟩, 3)],
      p.1.src.isDefault = false := by
  have h := c6_deltas_exclude_default
    (fun _ _ => .ok [(⟨0, false⟩, [2]), (⟨1, true⟩, [3])]) [] []
    [([], 1)] [(⟨0, false⟩, 2), (⟨1, true⟩, 3)] (by rfl)
  exact ⟨h.1, h.2.2.1⟩

/-- Auxiliary: the strictly-increasing gap-free run of a `range'`. -/
theorem range'_chain_succ (s n : ℕ) :
    (List.range' s n).Chain' (fun i j => j = i + 1) := by
  induction n generalizing s with
  | zero => simp
  | succ n ih =>
    rw [List.range'_succ]
    cases n with
    | zero => simp
    | succ m =>
      rw [List.range'_succ]
      exact List.Chain'.cons rfl (by rw [← List.range'_succ]; exact ih (s + 1))

/-- Auxiliary: the axis loop of src/lib.rs lines 353–372, run with
enough headroom below `u16::MAX`, appends exactly one name record and
one fvar record per axis, with consecutive IDs starting at `id`. -/
theorem buildAxisLoop_eq (axes : List Axis) :
    ∀ (nr : List NameRecord) (fv : List VariationAxisRecord) (id : ℕ),
    id + axes.length ≤ 65535 →
    buildAxisLoop axes nr fv id = some
      (nr ++ (axes.zip (List.range' id axes.length)).map
        (fun p => ⟨3, 1, 0x0409, p.2, p.1.uiLabelName⟩),
       fv ++ (axes.zip (List.range' id axes.length)).map
        (fun p => ⟨p.1.tag, p.1.min, p.1.default, p.1.max, p.2⟩)) := by
  induction axes with
  | nil => intro nr fv id h; simp [buildAxisLoop]
  | cons a rest ih =>
    intro nr fv id h
    have hlen : id + (rest.length + 1) ≤ 65535 := by simpa using h
    have h1 : id + 1 ≤ 65535 := by omega
    have h2 : (id + 1) + rest.length ≤ 65535 := by omega
    simp only [buildAxisLoop, nameIdCheckedAdd, if_pos h1]
    rw [ih _ _ (id + 1) h2]
    simp [List.range'_succ, List.zip_cons_cons, List.append_assoc]

/-- C3: the claim as stated is false in its overflow clause — when the
name-ID counter would exceed `u16::MAX` (65535), the code panics on
`checked_add(1).unwrap()` (a crash) instead of failing with an
`IdentifierOverflow` diagnostic. With an existing record already at ID
65535 and a single axis, the assembly is `none` (panic), not a returned
error. -/
theorem c3_counterexample :
    buildAxisTables
        [⟨"Weight", ⟨['w', 'g', 'h', 't']⟩, 100, 400, 900, false⟩]
        [⟨3, 1, 0x0409, 65535, "Existing"⟩] = none ∧
    startNameId [⟨3, 1, 0x0409, 65535, "Existing"⟩] = 65536 := by
  constructor
  · simp [buildAxisTables, nameIdBase, nameIdCheckedAdd,
      lastReservedNameId]
  · simp [startNameId, nameIdBase, lastReservedNameId]

/-- C3 (amended): name-ID allocation starts at
`max(existing name IDs ∪ {last reserved system ID}) + 1` and assigns
strictly increasing, gap-free IDs, one per axis in input order,
appending exactly one name record per axis; but when the counter would
exceed `u16::MAX` the operation panics (`checked_add(1).unwrap()`)
rather than failing with an `IdentifierOverflow` diagnostic. Under the
no-overflow hypothesis the allocation law is exactly as described. -/
theorem c3_name_id_allocation (axes : List Axis)
    (nameRecords : List NameRecord)
    (h : startNameId nameRecords + axes.length ≤ 65535) :
    ∃ newRecs fvars,
      buildAxisTables axes nameRecords =
        some (nameRecords ++ newRecs, fvars) ∧
      newRecs.map NameRecord.nameId =
        List.range' (startNameId nameRecords) axes.length ∧
      fvars.map VariationAxisRecord.axisNameId =
        List.range' (startNameId nameRecords) axes.length ∧
      newRecs.length = axes.length ∧
      newRecs.map NameRecord.string = axes.map Axis.uiLabelName ∧
      fvars.map VariationAxisRecord.axisTag = axes.map Axis.tag ∧
      (newRecs.map NameRecord.nameId).Chain' (fun i j => j = i + 1) := by
  have hstart : nameIdCheckedAdd (nameIdBase nameRecords) 1 =
      some (startNameId nameRecords) := by
    unfold nameIdCheckedAdd startNameId
    rw [if_pos (by unfold startNameId at h; omega)]
  have hlen : (List.range' (startNameId nameRecords) axes.length).length =
      axes.length := List.length_range' _ _ _
  have hzlen : (List.range' (startNameId nameRecords)
      axes.length).length ≤ axes.length := Nat.le_of_eq hlen
  refine ⟨(axes.zip (List.range' (startNameId nameRecords)
      axes.length)).map (fun p => ⟨3, 1, 0x0409, p.2, p.1.uiLabelName⟩),
    (axes.zip (List.range' (startNameId nameRecords) axes.length)).map
      (fun p => ⟨p.1.tag, p.1.min, p.1.default, p.1.max, p.2⟩),
    ?_, ?_, ?_, ?_, ?_, ?_, ?_⟩
  · unfold buildAxisTables
    rw [hstart]
    exact buildAxisLoop_eq axes nameRecords [] (startNameId nameRecords) h
  · rw [List.map_map]
    have : (NameRecord.nameId ∘ fun p : Axis × ℕ =>
        (⟨3, 1, 0x0409, p.2, p.1.uiLabelName⟩ : NameRecord)) =
        Prod.snd := rfl
    rw [this]
    exact List.map_snd_zip _ _ hzlen
  · rw [List.map_map]
    have : (VariationAxisRecord.axisNameId ∘ fun p : Axis × ℕ =>
        (⟨p.1.tag, p.1.min, p.1.default, p.1.max, p.2⟩ :
          VariationAxisRecord)) = Prod.snd := rfl
    rw [this]
    exact List.map_snd_zip _ _ hzlen
  · rw [List.length_map, List.length_zip, hlen, Nat.min_self]
  · rw [List.map_map]
    have : (NameRecord.string ∘ fun p : Axis × ℕ =>
        (⟨3, 1, 0x0409, p.2, p.1.uiLabelName⟩ : NameRecord)) =
        (Axis.uiLabelName ∘ Prod.fst) := rfl
    rw [this, ← List.map_map]
    rw [List.map_fst_zip _ _ (by rw [hlen])]
  · rw [List.map_map]
    have : (VariationAxisRecord.axisTag ∘ fun p : Axis × ℕ =>
        (⟨p.1.tag, p.1.min, p.1.default, p.1.max, p.2⟩ :
          VariationAxisRecord)) = (Axis.tag ∘ Prod.fst) := rfl
    rw [this, ← List.map_map]
    rw [List.map_fst_zip _ _ (by rw [hlen])]
  · rw [List.map_map]
    have : (NameRecord.nameId ∘ fun p : Axis × ℕ =>
        (⟨3, 1, 0x0409, p.2, p.1.uiLabelName⟩ : NameRecord)) =
        Prod.snd := rfl
    rw [this, List.map_snd_zip _ _ hzlen]
    exact range'_chain_succ _ _

/-- Witness for `c3_name_id_allocation`: two axes over an existing name
table whose maximum ID is 300 get IDs 301 and 302. -/
theorem c3_name_id_allocation_witness :
    ∃ newRecs fvars,
      buildAxisTables
          [⟨"Weight", ⟨['w', 'g', 'h', 't']⟩, 100, 400, 900, false⟩,
           ⟨"Width", ⟨['w', 'd', 't', 'h']⟩, 50, 100, 200, false⟩]
          [⟨3, 1, 0x0409, 300, "Existing"⟩] =
        some ([⟨3, 1, 0x0409, 300, "Existing"⟩] ++ newRecs, fvars) ∧
      newRecs.map NameRecord.nameId = List.range' 301 2 ∧
      fvars.map VariationAxisRecord.axisNameId = List.range' 301 2 ∧
      newRecs.length = 2 := by
  have h := c3_name_id_allocation
    [⟨"Weight", ⟨['w', 'g', 'h', 't']⟩, 100, 400, 900, false⟩,
     ⟨"Width", ⟨['w', 'd', 't', 'h']⟩, 50, 100, 200, false⟩]
    [⟨3, 1, 0x0409, 300, "Existing"⟩]
    (by simp [startNameId, nameIdBase, lastReservedNameId])
  rcases h with ⟨newRecs, fvars, h1, h2, h3, h4, -⟩
  have hs : startNameId [⟨3, 1, 0x0409, 300, "Existing"⟩] = 301 := by
    simp [startNameId, nameIdBase, lastReservedNameId]
  rw [hs] at h2 h3
  exact ⟨newRecs, fvars, h1, h2, h3, h4⟩

/-- C8: when the axis list is absent the table-assembly step leaves the
name table untouched and attaches no `fvar` table; when it is present
but empty, the per-axis loop never runs, so zero axis records are
produced, the name table is unchanged, and no `fvar` table is attached
(the empty-list case is stated under the benign hypothesis that the
name-ID seed increment — which the code performs even for zero axes —
does not overflow `u16`). -/
theorem c8_empty_axes_noop (nameRecords : List NameRecord) :
    buildTablesStep none nameRecords = some (nameRecords, none) ∧
    (startNameId nameRecords ≤ 65535 →
      buildTablesStep (some []) nameRecords = some (nameRecords, none)) := by
  constructor
  · rfl
  · intro h
    have hstart : nameIdCheckedAdd (nameIdBase nameRecords) 1 =
        some (startNameId nameRecords) := by
      unfold nameIdCheckedAdd startNameId
      rw [if_pos (by unfold startNameId at h; omega)]
    have hnew : SimpleVariationInfo.new [] = some ⟨[]⟩ := rfl
    simp only [buildTablesStep, hnew]
    unfold attachTables buildAxisTables
    rw [hstart]
    simp [buildAxisLoop]

/-- Witness for `c8_empty_axes_noop` on an empty existing name table. -/
theorem c8_empty_axes_noop_witness :
    buildTablesStep none [] = some ([], none) ∧
    buildTablesStep (some []) [] = some ([], none) := by
  refine ⟨(c8_empty_axes_noop []).1, (c8_empty_axes_noop []).2 ?_⟩
  simp [startNameId, nameIdBase, lastReservedNameId]

/-- Auxiliary: an ASCII scalar value occupies one UTF-8 byte. -/
theorem utf8Size_of_ascii (c : Char) (h : c.toNat < 0x80) :
    c.utf8Size = 1 := by
  unfold Char.utf8Size
  rw [if_pos]
  rw [UInt32.le_def, BitVec.le_def]
  exact Nat.le_of_lt_succ h

/-- Auxiliary: a scalar value below U+10000 occupies one UTF-16 code
unit. -/
theorem lenUtf16_of_ascii (c : Char) (h : c.toNat < 0x80) :
    lenUtf16 c = 1 := by
  unfold lenUtf16
  rw [if_pos (by omega)]

/-- Auxiliary: when every character is one byte, the UTF-8 length is the
character count. -/
theorem utf8Len_eq_length (l : List Char)
    (h : ∀ c ∈ l, c.utf8Size = 1) : utf8Len l = l.length := by
  induction l with
  | nil => rfl
  | cons c cs ih =>
    have h1 := h c (List.mem_cons_self c cs)
    have h2 := ih fun x hx => h x (List.mem_cons_of_mem c hx)
    simp only [utf8Len, List.map_cons, List.sum_cons,
      List.length_cons] at h2 ⊢
    omega

/-- Auxiliary: when every character is one UTF-16 unit, the UTF-16
length is the character count. -/
theorem utf16Len_eq_length (l : List Char)
    (h : ∀ c ∈ l, lenUtf16 c = 1) : utf16Len l = l.length := by
  induction l with
  | nil => rfl
  | cons c cs ih =>
    have h1 := h c (List.mem_cons_self c cs)
    have h2 := ih fun x hx => h x (List.mem_cons_of_mem c hx)
    simp only [utf16Len, List.map_cons, List.sum_cons,
      List.length_cons] at h2 ⊢
    omega

/-- Auxiliary: `get(..b)` at the byte length of a prefix returns that
prefix. -/
theorem strGetTo_append (p q : List Char) :
    strGetTo (p ++ q) (utf8Len p) = some p := by
  induction p with
  | nil => cases q <;> rfl
  | cons c p' ih =>
    have hsz := Char.utf8Size_pos c
    have hlen : utf8Len (c :: p') = c.utf8Size + utf8Len p' := by
      simp [utf8Len]
    obtain ⟨b, hb⟩ : ∃ b, utf8Len (c :: p') = b + 1 :=
      ⟨utf8Len (c :: p') - 1, by omega⟩
    rw [hb]
    show strGetTo (c :: (p' ++ q)) (b + 1) = some (c :: p')
    simp only [strGetTo]
    rw [if_pos (by omega)]
    have hrest : b + 1 - c.utf8Size = utf8Len p' := by omega
    rw [hrest, ih]
    rfl

/-- Auxiliary: a successful `get(..b)` yields a prefix whose UTF-8
length is exactly `b`. -/
theorem strGetTo_some_spec (s : List Char) :
    ∀ (b : ℕ) (p : List Char), strGetTo s b = some p →
      ∃ q, s = p ++ q ∧ utf8Len p = b := by
  induction s with
  | nil =>
    intro b p h
    cases b with
    | zero =>
      have hz : strGetTo [] 0 = some [] := rfl
      rw [hz, Option.some.injEq] at h
      exact ⟨[], by rw [← h]; rfl, by rw [← h]; rfl⟩
    | succ b => exact absurd h (by simp [strGetTo])
  | cons c cs ih =>
    intro b p h
    cases b with
    | zero =>
      have hz : strGetTo (c :: cs) 0 = some [] := rfl
      rw [hz, Option.some.injEq] at h
      exact ⟨c :: cs, by rw [← h]; rfl, by rw [← h]; rfl⟩
    | succ b =>
      simp only [strGetTo] at h
      split_ifs at h with hle
      · cases hg : strGetTo cs (b + 1 - c.utf8Size) with
        | none => rw [hg] at h; exact absurd h (by simp)
        | some p' =>
          rw [hg] at h
          simp only [Option.map_some', Option.some.injEq] at h
          rcases ih _ _ hg with ⟨q, hq, hl⟩
          refine ⟨q, by rw [← h, hq]; rfl, ?_⟩
          rw [← h]
          have : utf8Len (c :: p') = c.utf8Size + utf8Len p' := by
            simp [utf8Len]
          omega

/-- C7: `to_utf16_offset` returns, whenever the byte offset `b` lands on
a scalar-value boundary within the source (i.e. `b` is the UTF-8 length
of some prefix), the total number of UTF-16 code units of that prefix
(one per scalar below U+10000, two otherwise); when `b` is on no
boundary or exceeds the source length it returns `b` unchanged; it is a
total function (never panics). For ASCII-only source the result equals
`b`. -/
theorem c7_utf16_offset (s : List Char) (b : ℕ) :
    (∀ p q, s = p ++ q → utf8Len p = b → to_utf16_offset s b = utf16Len p) ∧
    ((∀ p q, s = p ++ q → utf8Len p ≠ b) → to_utf16_offset s b = b) ∧
    ((∀ c ∈ s, c.toNat < 0x80) → b ≤ s.length → to_utf16_offset s b = b) := by
  refine ⟨?_, ?_, ?_⟩
  · rintro p q rfl rfl
    unfold to_utf16_offset
    rw [strGetTo_append]
  · intro hnb
    unfold to_utf16_offset
    cases hg : strGetTo s b with
    | none => rfl
    | some p =>
      rcases strGetTo_some_spec s b p hg with ⟨q, hq, hlen⟩
      exact absurd hlen (hnb p q hq)
  · intro hascii hble
    have htake : s = s.take b ++ s.drop b := (List.take_append_drop b s).symm
    have hlen8 : utf8Len (s.take b) = b := by
      rw [utf8Len_eq_length _ fun c hc =>
        utf8Size_of_ascii c (hascii c (List.take_subset b s hc))]
      rw [List.length_take]
      omega
    have h1 : to_utf16_offset s b = utf16Len (s.take b) := by
      have hsg := strGetTo_append (s.take b) (s.drop b)
      rw [List.take_append_drop, hlen8] at hsg
      unfold to_utf16_offset
      rw [hsg]
    rw [h1, utf16Len_eq_length _ fun c hc =>
      lenUtf16_of_ascii c (hascii c (List.take_subset b s hc))]
    rw [List.length_take]
    omega

/-- Witness for `c7_utf16_offset`: a boundary offset inside ASCII text,
a non-boundary offset inside a three-byte character, an ASCII round
trip, and a four-byte scalar counting as two UTF-16 units. -/
theorem c7_utf16_offset_witness :
    to_utf16_offset ['a', 'b', 'c'] 2 = 2 ∧
    to_utf16_offset ['€'] 1 = 1 ∧
    to_utf16_offset ['a', 'b'] 2 = 2 ∧
    to_utf16_offset ['😀', 'b'] 4 = 2 := by
  refine ⟨?_, ?_, ?_, ?_⟩
  · have h := (c7_utf16_offset ['a', 'b', 'c'] 2).1 ['a', 'b'] ['c']
      rfl (by decide)
    rw [h]; decide
  · refine (c7_utf16_offset ['€'] 1).2.1 ?_
    intro p q hpq
    cases p with
    | nil => decide
    | cons c p' =>
      simp only [List.cons_append] at hpq
      have h1 : '€' = c := (List.cons_eq_cons.mp hpq).1
      have h2 : ([] : List Char) = p' ++ q := (List.cons_eq_cons.mp hpq).2
      have hp' : p' = [] := (List.append_eq_nil.mp h2.symm).1
      subst hp'
      rw [← h1]
      decide
  · exact (c7_utf16_offset ['a', 'b'] 2).2.2 (by decide) (by decide)
  · have h := (c7_utf16_offset ['😀', 'b'] 4).1 ['😀'] ['b']
      rfl (by decide)
    rw [h]; decide

end BuildShaperFont
